import Mathlib

/-!
Shallow embedding of the Resource Discovery & Concurrent Probe Engine of
`src/server.js` (a Node/Express web-page inspector), together with proofs
about the embedded definitions.

Modelling conventions:
* JavaScript strings are Lean `String`s; string helpers below operate on the
  underlying character lists so that every definition is executable.
* `new URL(s)` (the WHATWG URL parser) is modelled abstractly: a function of
  type `String → Option JsUrl` supplied as a parameter; `none` models a parse
  failure (the `catch` branch).  Concrete instantiations used in closed
  theorems are small executable parsers standing for the runtime parser.
* `absoluteUrl(base, rel)` results are likewise passed to the discovery
  phase as `Option String` values (`none` = resolution failure / `null`).
* Network responses and failures are passed in as explicit data
  (`JsResponse`, `Except String JsResponse`), so `probeResource` becomes a
  pure function of the network behaviour; it also returns the list of HTTP
  methods it issued, in order, so that "which requests were made" is
  provable.
-/

namespace NetworkInspector

/-- `MAX_RESOURCES` from server.js line 12. -/
def MAX_RESOURCES : Nat := 200

/-- `TIMEOUT` from server.js line 13 (ms). -/
def TIMEOUT : Nat := 20000

/-- `CSS_FETCH_TIMEOUT` from server.js line 14 (ms). -/
def CSS_FETCH_TIMEOUT : Nat := 8000

/-- `CONCURRENCY` from server.js line 15. -/
def CONCURRENCY : Nat := 8

/-- The outcome of `new URL(u)`: the fields of the parsed URL object that
`isBlockedUrl` inspects (`protocol`, `hostname`). -/
structure JsUrl where
  protocol : String
  hostname : String
  deriving Repr, DecidableEq

/-- `a.startsWith b` on JS strings, used to model the anchored regex
`/^(10\.|127\.|192\.168\.|169\.254\.)/` as a disjunction of literal
textual-prefix tests (executable on the character list). -/
def strHasPre (s pat : String) : Bool :=
  pat.data.isPrefixOf s.data

/-- `s.endsWith(pat)` on JS strings (executable on the character list). -/
def strHasSuf (s pat : String) : Bool :=
  pat.data.isSuffixOf s.data

/-- `s.toLowerCase()` for ASCII hostnames. -/
def jsToLower (s : String) : String :=
  String.mk (s.data.map Char.toLower)

/-- `isBlockedUrl` (server.js lines 17-29), as a function of the parse
result of `new URL(u)`: `none` is the parse-failure (`catch`) branch. -/
def isBlockedUrl (parsed : Option JsUrl) : Bool :=
  match parsed with
  | none => true
  | some url =>
    if ¬ (url.protocol = "http:" ∨ url.protocol = "https:") then true
    else
      let host := jsToLower url.hostname
      if host = "localhost" ∨ host = "127.0.0.1" ∨ host = "::1" then true
      else if strHasSuf host ".local" then true
      else if strHasPre host "10." ∨ strHasPre host "127." ∨
              strHasPre host "192.168." ∨ strHasPre host "169.254." then true
      else false

/-- Host part of a demo parse: characters up to the first `/`. -/
def parseDemoHost (proto : String) (rest : List Char) : Option JsUrl :=
  let host := rest.takeWhile (fun c => c ≠ '/')
  if host.isEmpty then none else some ⟨proto, String.mk host⟩

/-- A small executable stand-in for the runtime URL parser, correct for the
plain absolute `http(s)://host/path` URLs used in concrete theorems. -/
def parseDemo (s : String) : Option JsUrl :=
  if strHasPre s "http://" then parseDemoHost "http:" (s.data.drop 7)
  else if strHasPre s "https://" then parseDemoHost "https:" (s.data.drop 8)
  else none

/-- An entry of the candidate map `resources` / of the `toProbe` array:
an absolute URL with the initiator tag recorded at first insertion. -/
structure Candidate where
  url : String
  initiator : String
  deriving Repr, DecidableEq

/-- `resources.has(u)` on the insertion-ordered candidate map, modelled as a
list of entries with distinct URLs. -/
def hasUrl (m : List Candidate) (u : String) : Bool :=
  m.any (fun c => c.url == u)

/-- `pushUrl` (server.js lines 127-131).  The argument is the result of
`absoluteUrl(...)` at the call site (`none` = `null`), and `parse` models
`new URL` inside `isBlockedUrl`. -/
def pushUrl (parse : String → Option JsUrl) (m : List Candidate)
    (u : Option String) (initiator : String) : List Candidate :=
  match u with
  | none => m
  | some u =>
    if isBlockedUrl (parse u) then m
    else if hasUrl m u then m
    else m ++ [⟨u, initiator⟩]

/-- The HTML-extraction phase (server.js lines 133-156): the cheerio
traversal is a deterministic sequence of `pushUrl` calls, modelled as the
fold of `pushUrl` over the list of (resolved URL, initiator) events it
produces. -/
def discover (parse : String → Option JsUrl)
    (events : List (Option String × String)) : List Candidate :=
  events.foldl (fun m e => pushUrl parse m e.1 e.2) []

/-- The `toProbe`-building loop (server.js lines 165-169): copy candidate
map entries in order, breaking once `MAX_RESOURCES` is reached. -/
def capCopy (acc : List Candidate) : List Candidate → List Candidate
  | [] => acc
  | c :: rest =>
    if MAX_RESOURCES ≤ acc.length then acc
    else capCopy (acc ++ [c]) rest

/-- `toProbe` as built from the candidate map (server.js lines 165-169). -/
def buildToProbe (m : List Candidate) : List Candidate :=
  capCopy [] m

/-- The inner insertion loop of the stylesheet crawl (server.js lines
180-183): for each URL extracted from the fetched CSS body, break at the
cap, skip URLs already in `toProbe`, and otherwise append with initiator
`css-url`.  Note: no `isBlockedUrl` check is performed here. -/
def addExtra (tp : List Candidate) : List String → List Candidate
  | [] => tp
  | u :: us =>
    if MAX_RESOURCES ≤ tp.length then tp
    else if hasUrl tp u then addExtra tp us
    else addExtra (tp ++ [⟨u, "css-url"⟩]) us

/-- The stylesheet-crawl loop (server.js lines 172-188).
`cssLinks` holds the `absoluteUrl(target, href)` results pushed at lines
158-162 (`none` = resolution failure, i.e. a `null` array entry);
`cssFetch u` models `fetchWithTimeout(u, GET, CSS_FETCH_TIMEOUT)` followed
by `r.ok` and `findCssUrls(cssText, u)`: `none` when the fetch throws or
`r.ok` is false (skip silently), `some extra` the extracted URL list.
Returns the final `toProbe` together with the list of stylesheet URLs that
were actually fetched, in order.  Note the `break` (not `continue`) on a
falsy `cssUrl`. -/
def crawlCss (parse : String → Option JsUrl)
    (cssFetch : String → Option (List String)) :
    List (Option String) → List Candidate → List Candidate × List String
  | [], tp => (tp, [])
  | none :: _, tp => (tp, [])
  | some cssUrl :: rest, tp =>
    if MAX_RESOURCES ≤ tp.length then (tp, [])
    else if isBlockedUrl (parse cssUrl) then crawlCss parse cssFetch rest tp
    else
      let tp2 := match cssFetch cssUrl with
        | none => tp
        | some extra => addExtra tp extra
      let r := crawlCss parse cssFetch rest tp2
      (r.1, cssUrl :: r.2)

/-- The fields of a `fetch` `Response` object that `probeResource` and the
inspect handler read.  `contentType` / `contentLength` are
`headers.get(...)` results (`none` = `null`); `bodyBytes` is the byte
length delivered by `res.arrayBuffer()`, `none` when that read throws. -/
structure JsResponse where
  status : Nat
  ok : Bool
  contentType : Option String
  contentLength : Option String
  bodyBytes : Option Nat
  deriving Repr, DecidableEq

/-- The network behaviour one probed URL exhibits: the outcome of the HEAD
fetch, the outcome of a GET fetch (consulted only if issued), and the
elapsed wall time `Date.now() - start` observed in the `finally` block.
`Except.error e` models `fetchWithTimeout` throwing with message `e`
(timeout abort, DNS failure, connection refused). -/
structure ProbeBhv where
  head : Except String JsResponse
  get : Except String JsResponse
  elapsed : Nat
  deriving Repr

/-- A JavaScript number-or-null slot (`result.size` can be `null`, `NaN`
from `parseInt`, or a number). -/
inductive JsNum where
  | nullv
  | nan
  | num (n : Int)
  deriving Repr, DecidableEq

/-- JS truthiness of a `JsNum` slot: `null`, `NaN` and `0` are falsy. -/
def jsFalsy : JsNum → Bool
  | .nullv => true
  | .nan => true
  | .num n => n == 0

/-- `isNaN(x)` on a `JsNum` slot. -/
def jsIsNaN : JsNum → Bool
  | .nan => true
  | _ => false

/-- `parseInt(s, 10)`: skip leading whitespace, optional sign, then the
longest run of decimal digits; `none` models `NaN` (no digits). -/
def parseIntDigits (cs : List Char) : Option Nat :=
  let ds := cs.takeWhile Char.isDigit
  if ds.isEmpty then none
  else some (ds.foldl (fun a c => a * 10 + (c.toNat - 48)) 0)

/-- `parseInt(s, 10)` (sign handling included); `none` models `NaN`. -/
def jsParseInt (s : String) : Option Int :=
  match s.data.dropWhile Char.isWhitespace with
  | '-' :: rest => (parseIntDigits rest).map (fun n => -(n : Int))
  | '+' :: rest => (parseIntDigits rest).map (fun n => (n : Int))
  | rest => (parseIntDigits rest).map (fun n => (n : Int))

/-- `x || null` on a nullable JS string: the empty string is falsy and
collapses to `null`. -/
def jsOrNull : Option String → Option String
  | none => none
  | some s => if s = "" then none else some s

/-- The `result` object built by `probeResource` (server.js lines 65-74),
plus the `initiator` attached afterwards in the batching loop (line 201). -/
structure ProbeResult where
  url : String
  status : Option Nat
  ok : Bool
  contentType : Option String
  size : JsNum
  timeMs : Option Nat
  methodTried : Option String
  error : Option String
  initiator : Option String
  deriving Repr, DecidableEq

/-- The all-null initial `result` object (server.js lines 65-74). -/
def initResult (resourceUrl : String) : ProbeResult :=
  ⟨resourceUrl, none, false, none, .nullv, none, none, none, none⟩

/-- The success path of `probeResource` after the working response `r` is
fixed (server.js lines 84-96): record status, `ok`, content type
(`headers.get || null`), then the size logic — `if (cl) size = parseInt(cl, 10)`
followed by the body-read fallback guarded by
`(!result.size || isNaN(result.size)) && methodTried === "GET"`. -/
def probeFinish (base : ProbeResult) (r : JsResponse) (method : String)
    (elapsed : Nat) : ProbeResult :=
  let size0 : JsNum :=
    match r.contentLength with
    | none => .nullv
    | some cl =>
      if cl = "" then .nullv
      else match jsParseInt cl with
        | none => .nan
        | some n => .num n
  let size1 : JsNum :=
    if (jsFalsy size0 || jsIsNaN size0) = true ∧ method = "GET" then
      match r.bodyBytes with
      | some b => .num b
      | none => size0
    else size0
  { base with
    status := some r.status
    ok := r.ok
    contentType := jsOrNull r.contentType
    size := size1
    timeMs := some elapsed
    methodTried := some method }

/-- `probeResource` (server.js lines 64-103) as a pure function of the
per-URL network behaviour.  Also returns the list of HTTP methods issued,
in order.  `methodTried` is assigned before each fetch, so an error result
carries the last method attempted; `timeMs` is set in the `finally`
block on every path. -/
def probeResource (b : ProbeBhv) (resourceUrl : String) :
    ProbeResult × List String :=
  let base := initResult resourceUrl
  match b.head with
  | .error e =>
    ({ base with methodTried := some "HEAD", error := some e,
                 timeMs := some b.elapsed }, ["HEAD"])
  | .ok r0 =>
    if r0.status = 405 ∨ r0.status = 501 then
      match b.get with
      | .error e =>
        ({ base with methodTried := some "GET", error := some e,
                     timeMs := some b.elapsed }, ["HEAD", "GET"])
      | .ok r => (probeFinish base r "GET" b.elapsed, ["HEAD", "GET"])
    else (probeFinish base r0 "HEAD" b.elapsed, ["HEAD"])

/-- One entry of the `probes` array (server.js lines 190-192): a URL with
its initiator.  The extra `mainStatus` / `mainTimeMs` fields of the first
entry are threaded separately into the report assembly below. -/
structure ProbeItem where
  url : String
  initiator : Option String
  deriving Repr, DecidableEq

/-- The body of the per-item async closure in the batching loop (server.js
lines 198-206): probe the URL and attach `item.initiator || null`.
(`probeResource` is total, so the surrounding `catch` is dead.) -/
def runItem (bhv : String → ProbeBhv) (item : ProbeItem) : ProbeResult :=
  let info := (probeResource (bhv item.url) item.url).1
  { info with initiator := jsOrNull item.initiator }

/-- Body of the chunked probing loop (server.js lines 195-209): slice off
`CONCURRENCY` items, map the probe over the slice, concatenate, repeat.
The counter `n` bounds the remaining iterations (each iteration consumes
at least one element, so `n = l.length` suffices); it makes the recursion
structural and hence kernel-computable. -/
def probeLoopGo {α β : Type} (f : α → β) : Nat → List α → List β
  | _, [] => []
  | 0, _ :: _ => []
  | n + 1, x :: xs =>
    ((x :: xs).take CONCURRENCY).map f ++ probeLoopGo f n ((x :: xs).drop CONCURRENCY)

/-- The chunked probing loop (server.js lines 195-209). -/
def probeLoop {α β : Type} (f : α → β) (l : List α) : List β :=
  probeLoopGo f l.length l

/-- Body of the batch decomposition: the slices
`probes.slice(i, i + CONCURRENCY)` for `i = 0, 8, 16, ...`, with the same
iteration counter as `probeLoopGo`. -/
def chunksOfGo {α : Type} : Nat → List α → List (List α)
  | _, [] => []
  | 0, _ :: _ => []
  | n + 1, x :: xs =>
    ((x :: xs).take CONCURRENCY) :: chunksOfGo n ((x :: xs).drop CONCURRENCY)

/-- The batches the probing loop walks through. -/
def chunksOf {α : Type} (l : List α) : List (List α) :=
  chunksOfGo l.length l

/-- The `probes` array assembly (server.js lines 190-192): the main
document first, then the non-main candidates, truncated to
`MAX_RESOURCES`. -/
def mkProbes (target : String) (toProbe : List Candidate) : List ProbeItem :=
  ⟨target, some "document"⟩ ::
    ((toProbe.filter (fun t => t.url ≠ target)).take MAX_RESOURCES).map
      (fun c => ⟨c.url, some c.initiator⟩)

/-- The `main` field of the report (server.js line 213). -/
structure MainInfo where
  status : Nat
  ok : Bool
  contentType : Option String
  timeMs : Nat
  deriving Repr, DecidableEq

/-- The JSON report (server.js lines 211-216), minus the fixed note text. -/
structure Report where
  fetchedUrl : String
  main : Option MainInfo
  resources : List ProbeResult
  deriving Repr, DecidableEq

/-- The `/api/inspect` pipeline after the main document has been fetched
(server.js lines 121-216): discovery fold, `toProbe` build, stylesheet
crawl, `probes` assembly, chunked probing, report assembly.
`events` is the sequence of (resolved URL, initiator) pairs the cheerio
traversal feeds to `pushUrl`; `cssLinks` the resolved stylesheet hrefs;
`pageResp`/`mainTime` the fetch outcome of the main document. -/
def inspect (parse : String → Option JsUrl)
    (cssFetch : String → Option (List String)) (bhv : String → ProbeBhv)
    (target : String) (pageResp : JsResponse) (mainTime : Nat)
    (events : List (Option String × String))
    (cssLinks : List (Option String)) : Report :=
  let resources := discover parse events
  let toProbe0 := buildToProbe resources
  let toProbe := (crawlCss parse cssFetch cssLinks toProbe0).1
  let probes := mkProbes target toProbe
  let results := probeLoop (runItem bhv) probes
  { fetchedUrl := target
    main := some ⟨pageResp.status, pageResp.ok, pageResp.contentType, mainTime⟩
    resources := results.take MAX_RESOURCES }

/-- The three outcomes of the `/api/inspect` handler: a 400 validation
failure, a 502 main-fetch failure, or a JSON report. -/
inductive InspectOutcome where
  | badRequest (msg : String)
  | badGateway (msg : String)
  | report (r : Report)
  deriving Repr

/-- The `/api/inspect` handler (server.js lines 105-216): empty target →
400; blocked target → 400 before any fetch; main fetch failure → 502;
otherwise the discovery/crawl/probe pipeline.  `mainFetch` models
`fetchWithTimeout(target, GET)` plus `pageResp.text()` together with the
measured elapsed time. -/
def apiInspect (parse : String → Option JsUrl)
    (cssFetch : String → Option (List String)) (bhv : String → ProbeBhv)
    (target : String) (mainFetch : Except String (JsResponse × Nat))
    (events : List (Option String × String))
    (cssLinks : List (Option String)) : InspectOutcome :=
  if target = "" then .badRequest "Missing url in body"
  else if isBlockedUrl (parse target) then
    .badRequest "URL blocked (private or non-http(s) scheme)"
  else
    match mainFetch with
    | .error e => .badGateway e
    | .ok (pageResp, mainTime) =>
      .report (inspect parse cssFetch bhv target pageResp mainTime events cssLinks)

/-- The reported JSON value of a `JsNum` slot: `res.json` serialises both
`null` and `NaN` as JSON `null`. -/
def sizeJson : JsNum → Option Int
  | .nullv => none
  | .nan => none
  | .num n => some n

/-- Size rule in the words of the amended C5 claim: the `content-length`
header value when present, numeric and nonzero; otherwise the body byte
length if the final method was GET and the body read succeeds; otherwise
the header value 0 if the header parsed to 0; otherwise null. -/
def specSize (method : String) (r : JsResponse) : Option Int :=
  let header : Option Int :=
    match r.contentLength with
    | none => none
    | some cl => if cl = "" then none else jsParseInt cl
  match header with
  | some n =>
    if n ≠ 0 then some n
    else if method = "GET" then
      match r.bodyBytes with
      | some b => some b
      | none => some 0
    else some 0
  | none =>
    if method = "GET" then
      match r.bodyBytes with
      | some b => some b
      | none => none
    else none

/-! Concrete data used by witnesses and counterexamples. -/

/-- Network behaviour used in the C7 witness. -/
def bhvW : String → ProbeBhv :=
  fun _ => ⟨Except.ok ⟨200, true, some "text/plain", some "3", none⟩,
            Except.ok ⟨200, true, none, none, none⟩, 1⟩

/-- Nine probe items: with CONCURRENCY = 8 they form batches of 8 and 1. -/
def itemsW : List ProbeItem :=
  List.replicate 9 ⟨"http://site.example/x", some "img"⟩

/-- A 405 HEAD response (C8 witness data). -/
def r405resp : JsResponse := ⟨405, false, none, none, none⟩

/-- A plain 200 response (C8 witness data). -/
def rPlain : JsResponse := ⟨200, true, some "text/css", some "10", none⟩

/-- 405-then-GET behaviour (C8 witness data). -/
def bC8 : ProbeBhv := ⟨Except.ok r405resp, Except.ok rPlain, 2⟩

/-- 200-HEAD behaviour (C8 witness data). -/
def bC8b : ProbeBhv := ⟨Except.ok rPlain, Except.ok r405resp, 2⟩

/-- One-entry candidate map (C9 witness data). -/
def mW : List Candidate := [⟨"http://site.example/a.png", "img"⟩]

/-- A GET response whose `content-length` header is the numeric string
"0" while the delivered body is 5 bytes long (C5 counterexample data). -/
def rZeroCl : JsResponse := ⟨200, true, some "image/png", some "0", some 5⟩

/-- Behaviour forcing the GET fallback onto `rZeroCl` (C5 data). -/
def bC5 : ProbeBhv := ⟨Except.ok r405resp, Except.ok rZeroCl, 3⟩

/-- Stylesheet fetch behaviour for the C1 counterexample: the stylesheet
at `site.example` contains a `url()` reference to a private 10.x host. -/
def fetchC1 : String → Option (List String) :=
  fun u => if u = "http://site.example/a.css" then
    some ["http://10.9.9.9/x.png"] else none

/-- Probe behaviour for the C2 counterexample: every probe (HEAD) answers
500, distinguishable from the initial 200 fetch of the main document. -/
def bhvC2 : String → ProbeBhv :=
  fun _ => ⟨Except.ok ⟨500, false, some "text/html", none, none⟩,
            Except.ok ⟨500, false, none, none, none⟩, 4⟩

/-- The main document response for the C2 counterexample. -/
def pageC2 : JsResponse := ⟨200, true, some "text/html", none, none⟩

/-- URL string of length `n` (distinct lengths give distinct URLs); used
to build arbitrarily many distinct candidate URLs (C3 data). -/
def urlRep (n : Nat) : String := String.mk (List.replicate n 'a')

/-- A parse behaviour under which every URL string parses to a fixed
public host, so nothing is blocked (C3 data). -/
def parseConst : String → Option JsUrl := fun _ => some ⟨"http:", "site.example"⟩

/-- 201 distinct discovery events (C3 counterexample data). -/
def evsLong : List (Option String × String) :=
  ((List.range 201).map urlRep).map (fun u => (some u, "img"))

/-- Stylesheet fetch behaviour for the C10 counterexample: the second
stylesheet resolves and would contribute `d.png`. -/
def fetchC10 : String → Option (List String) :=
  fun u => if u = "http://site.example/b.css" then
    some ["http://site.example/d.png"] else none

/-! ## Helper lemmas -/

theorem probeLoopGo_eq_map {α β : Type} (f : α → β) :
    ∀ (n : Nat) (l : List α), l.length ≤ n → probeLoopGo f n l = l.map f := by
  intro n
  induction n with
  | zero =>
    intro l h
    cases l with
    | nil => simp [probeLoopGo]
    | cons x xs => simp at h
  | succ n ih =>
    intro l h
    cases l with
    | nil => simp [probeLoopGo]
    | cons x xs =>
      rw [probeLoopGo, ih ((x :: xs).drop CONCURRENCY)
        (by simp only [List.length_drop, List.length_cons, CONCURRENCY] at h ⊢; omega)]
      rw [← List.map_append, List.take_append_drop]

theorem probeLoop_eq_map {α β : Type} (f : α → β) (l : List α) :
    probeLoop f l = l.map f :=
  probeLoopGo_eq_map f l.length l le_rfl

theorem probeLoopGo_eq_chunks {α β : Type} (f : α → β) :
    ∀ (n : Nat) (l : List α),
      probeLoopGo f n l = ((chunksOfGo n l).map (List.map f)).flatten := by
  intro n
  induction n with
  | zero =>
    intro l
    cases l <;> simp [probeLoopGo, chunksOfGo]
  | succ n ih =>
    intro l
    cases l with
    | nil => simp [probeLoopGo, chunksOfGo]
    | cons x xs =>
      rw [probeLoopGo, chunksOfGo, ih]
      simp

theorem probeLoop_eq_chunks {α β : Type} (f : α → β) (l : List α) :
    probeLoop f l = ((chunksOf l).map (List.map f)).flatten :=
  probeLoopGo_eq_chunks f l.length l

theorem chunksOfGo_mem_le {α : Type} :
    ∀ (n : Nat) (l : List α) (c : List α),
      c ∈ chunksOfGo n l → c.length ≤ CONCURRENCY ∧ c ≠ [] := by
  intro n
  induction n with
  | zero =>
    intro l c hc
    cases l <;> simp [chunksOfGo] at hc
  | succ n ih =>
    intro l c hc
    cases l with
    | nil => simp [chunksOfGo] at hc
    | cons x xs =>
      rw [chunksOfGo] at hc
      rcases List.mem_cons.mp hc with h | h
      · subst h
        refine ⟨by simp only [List.length_take]; omega, ?_⟩
        simp [CONCURRENCY]
      · exact ih _ c h

theorem chunksOf_mem_le {α : Type} (l : List α) (c : List α)
    (hc : c ∈ chunksOf l) : c.length ≤ CONCURRENCY ∧ c ≠ [] :=
  chunksOfGo_mem_le l.length l c hc

theorem chunksOfGo_dropLast_len {α : Type} :
    ∀ (n : Nat) (l : List α) (c : List α), l.length ≤ n →
      c ∈ (chunksOfGo n l).dropLast → c.length = CONCURRENCY := by
  intro n
  induction n with
  | zero =>
    intro l c _ hc
    cases l <;> simp [chunksOfGo] at hc
  | succ n ih =>
    intro l c hn hc
    cases l with
    | nil => simp [chunksOfGo] at hc
    | cons x xs =>
      rw [chunksOfGo] at hc
      by_cases hrest : chunksOfGo n ((x :: xs).drop CONCURRENCY) = []
      · simp [hrest] at hc
      · rw [List.dropLast_cons_of_ne_nil hrest] at hc
        rcases List.mem_cons.mp hc with h | h
        · subst h
          have hlen : CONCURRENCY < (x :: xs).length := by
            by_contra hle
            push_neg at hle
            have hdrop : (x :: xs).drop CONCURRENCY = [] :=
              List.drop_eq_nil_of_le hle
            rw [hdrop] at hrest
            cases n <;> simp [chunksOfGo] at hrest
          simp only [List.length_take, List.length_cons] at hlen ⊢
          omega
        · refine ih _ c ?_ h
          simp only [List.length_drop, List.length_cons, CONCURRENCY] at hn ⊢
          omega

theorem chunksOf_dropLast_len {α : Type} (l : List α) (c : List α)
    (hc : c ∈ (chunksOf l).dropLast) : c.length = CONCURRENCY :=
  chunksOfGo_dropLast_len l.length l c le_rfl hc

theorem pushUrl_mem_cases (parse : String → Option JsUrl) (m : List Candidate)
    (u : Option String) (i : String) (c : Candidate)
    (hc : c ∈ pushUrl parse m u i) :
    c ∈ m ∨ ∃ s, u = some s ∧ c = ⟨s, i⟩ ∧ isBlockedUrl (parse s) = false := by
  cases u with
  | none => exact Or.inl hc
  | some s =>
    by_cases hb : isBlockedUrl (parse s) = true
    · simp [pushUrl, hb] at hc
      exact Or.inl hc
    · by_cases hh : hasUrl m s = true
      · simp [pushUrl, hh] at hc
        exact Or.inl hc
      · simp only [pushUrl, Bool.not_eq_true] at hb hh
        simp [pushUrl, hb, hh, List.mem_append] at hc
        rcases hc with hc | hc
        · exact Or.inl hc
        · exact Or.inr ⟨s, rfl, hc, hb⟩

theorem foldl_pushUrl_unblocked (parse : String → Option JsUrl)
    (events : List (Option String × String)) :
    ∀ m, (∀ c ∈ m, isBlockedUrl (parse c.url) = false) →
      ∀ c ∈ events.foldl (fun m e => pushUrl parse m e.1 e.2) m,
        isBlockedUrl (parse c.url) = false := by
  induction events with
  | nil => intro m hm c hc; exact hm c hc
  | cons e rest ih =>
    intro m hm c hc
    simp only [List.foldl_cons] at hc
    refine ih (pushUrl parse m e.1 e.2) ?_ c hc
    intro d hd
    rcases pushUrl_mem_cases parse m e.1 e.2 d hd with hd | ⟨s, _, rfl, hs⟩
    · exact hm d hd
    · exact hs

theorem crawlCss_fetched_unblocked (parse : String → Option JsUrl)
    (cssFetch : String → Option (List String)) :
    ∀ (links : List (Option String)) (tp : List Candidate),
      ∀ u ∈ (crawlCss parse cssFetch links tp).2,
        isBlockedUrl (parse u) = false := by
  intro links
  induction links with
  | nil => intro tp u hu; simp [crawlCss] at hu
  | cons hd rest ih =>
    intro tp u hu
    cases hd with
    | none => simp [crawlCss] at hu
    | some cssUrl =>
      by_cases hcap : MAX_RESOURCES ≤ tp.length
      · simp [crawlCss, hcap] at hu
      · by_cases hb : isBlockedUrl (parse cssUrl) = true
        · simp only [crawlCss, if_neg hcap, if_pos hb] at hu
          exact ih tp u hu
        · simp only [crawlCss, if_neg hcap, if_neg hb, List.mem_cons] at hu
          rcases hu with rfl | hu
          · exact Bool.not_eq_true _ ▸ (by simpa using hb)
          · exact ih _ u hu

theorem capCopy_length (l : List Candidate) :
    ∀ acc, (capCopy acc l).length ≤ max acc.length MAX_RESOURCES := by
  induction l with
  | nil => intro acc; simp [capCopy]
  | cons c rest ih =>
    intro acc
    rw [capCopy]
    by_cases h : MAX_RESOURCES ≤ acc.length
    · simp [h]
    · rw [if_neg h]
      have := ih (acc ++ [c])
      simp only [List.length_append, List.length_cons, List.length_nil] at this ⊢
      omega

theorem buildToProbe_length (m : List Candidate) :
    (buildToProbe m).length ≤ MAX_RESOURCES := by
  have := capCopy_length m []
  simpa [buildToProbe] using this

theorem addExtra_length (us : List String) :
    ∀ tp, (addExtra tp us).length ≤ max tp.length MAX_RESOURCES := by
  induction us with
  | nil => intro tp; simp [addExtra]
  | cons u rest ih =>
    intro tp
    rw [addExtra]
    by_cases h : MAX_RESOURCES ≤ tp.length
    · simp [h]
    · rw [if_neg h]
      by_cases hh : hasUrl tp u = true
      · simp only [hh, if_pos]
        exact ih tp
      · rw [if_neg hh]
        have := ih (tp ++ [⟨u, "css-url"⟩])
        simp only [List.length_append, List.length_cons, List.length_nil] at this ⊢
        omega

theorem crawlCss_length (parse : String → Option JsUrl)
    (cssFetch : String → Option (List String)) :
    ∀ (links : List (Option String)) (tp : List Candidate),
      (crawlCss parse cssFetch links tp).1.length ≤ max tp.length MAX_RESOURCES := by
  intro links
  induction links with
  | nil => intro tp; simp [crawlCss]
  | cons hd rest ih =>
    intro tp
    cases hd with
    | none => simp [crawlCss]
    | some cssUrl =>
      by_cases hcap : MAX_RESOURCES ≤ tp.length
      · simp [crawlCss, hcap]
      · by_cases hb : isBlockedUrl (parse cssUrl) = true
        · simp only [crawlCss, if_neg hcap, if_pos hb]
          exact ih tp
        · simp only [crawlCss, if_neg hcap, if_neg hb]
          cases hfetch : cssFetch cssUrl with
          | none =>
            simp only [hfetch]
            exact ih tp
          | some extra =>
            simp only [hfetch]
            have h1 := ih (addExtra tp extra)
            have h2 := addExtra_length extra tp
            omega

theorem pushUrl_insert (parse : String → Option JsUrl) (m : List Candidate)
    (u : String) (i : String) (hb : isBlockedUrl (parse u) = false)
    (hn : hasUrl m u = false) :
    pushUrl parse m (some u) i = m ++ [⟨u, i⟩] := by
  simp [pushUrl, hb, hn]

theorem hasUrl_append (m : List Candidate) (c : Candidate) (u : String) :
    hasUrl (m ++ [c]) u = (hasUrl m u || (c.url == u)) := by
  simp [hasUrl]

theorem foldl_pushUrl_nodup (parse : String → Option JsUrl) (i : String) :
    ∀ (us : List String) (m : List Candidate),
      (∀ u ∈ us, isBlockedUrl (parse u) = false) →
      us.Nodup →
      (∀ u ∈ us, hasUrl m u = false) →
      (us.map (fun u => (some u, i))).foldl (fun m e => pushUrl parse m e.1 e.2) m
        = m ++ us.map (fun u => (⟨u, i⟩ : Candidate)) := by
  intro us
  induction us with
  | nil => intro m _ _ _; simp
  | cons u rest ih =>
    intro m hb hnd hm
    simp only [List.map_cons, List.foldl_cons]
    have hstep : ∀ v ∈ rest, hasUrl (m ++ [⟨u, i⟩]) v = false := by
      intro v hv
      rw [hasUrl_append]
      have h1 : hasUrl m v = false := hm v (by simp [hv])
      have h2 : u ≠ v := by
        rcases List.nodup_cons.mp hnd with ⟨hu, _⟩
        intro h; exact hu (h ▸ hv)
      simp [h1, h2]
    rw [pushUrl_insert parse m u i (hb u (by simp)) (hm u (by simp)),
      ih (m ++ [(⟨u, i⟩ : Candidate)]) (fun v hv => hb v (by simp [hv]))
        hnd.of_cons hstep]
    simp

/-! ## Claim theorems -/

/-- C4: `isBlockedUrl` reports blocked exactly when the URL string fails
to parse, or the scheme is not http/https, or the lowercased hostname is
`localhost`, `127.0.0.1` or `::1`, ends in `.local`, or textually starts
with `10.`, `127.`, `192.168.` or `169.254.`; every other parsed http(s)
URL is not blocked.  The embedded function is pure, so it has no side
effects. -/
theorem isBlockedUrl_characterization :
    isBlockedUrl none = true ∧
    ∀ u : JsUrl,
      isBlockedUrl (some u) = true ↔
        ((u.protocol ≠ "http:" ∧ u.protocol ≠ "https:") ∨
          jsToLower u.hostname = "localhost" ∨
          jsToLower u.hostname = "127.0.0.1" ∨
          jsToLower u.hostname = "::1" ∨
          strHasSuf (jsToLower u.hostname) ".local" = true ∨
          strHasPre (jsToLower u.hostname) "10." = true ∨
          strHasPre (jsToLower u.hostname) "127." = true ∨
          strHasPre (jsToLower u.hostname) "192.168." = true ∨
          strHasPre (jsToLower u.hostname) "169.254." = true) := by
  refine ⟨rfl, fun u => ?_⟩
  simp only [isBlockedUrl]
  split_ifs with h1 h2 h3 h4 <;>
    first
      | exact iff_of_true rfl (Or.inl (not_or.mp h1))
      | exact iff_of_true rfl (by tauto)
      | exact iff_of_false (by simp) (by tauto)

/-- C6: `probeResource` is total at the per-URL boundary: for every
network behaviour it returns a terminal result with `timeMs` reported, in
which exactly one of `status` / `error` is set, and an error result has
`status`, `contentType` and `size` all null; `probeAll` is a per-item map,
so a failure of one candidate never affects sibling probes. -/
theorem probeResource_total (b : ProbeBhv) (u : String) :
    ((probeResource b u).1.timeMs = some b.elapsed) ∧
    (((∃ s, (probeResource b u).1.status = some s) ∧
        (probeResource b u).1.error = none) ∨
      ((∃ e, (probeResource b u).1.error = some e) ∧
        (probeResource b u).1.status = none ∧
        (probeResource b u).1.contentType = none ∧
        (probeResource b u).1.size = JsNum.nullv)) ∧
    (∀ (bhv : String → ProbeBhv) (items : List ProbeItem),
      probeLoop (runItem bhv) items = items.map (runItem bhv)) := by
  refine ⟨?_, ?_, fun bhv items => probeLoop_eq_map _ _⟩ <;>
  · cases hh : b.head with
    | error e => simp [probeResource, hh, initResult]
    | ok r0 =>
      by_cases hs : r0.status = 405 ∨ r0.status = 501
      · cases hg : b.get with
        | error e => simp [probeResource, hh, hs, hg, initResult]
        | ok r => simp [probeResource, hh, hs, hg, probeFinish, initResult]
      · simp [probeResource, hh, hs, probeFinish, initResult]

/-- C7: the chunked probing loop returns one result per input item, in
input order (it equals the plain map), processes the input in consecutive
batches of at most CONCURRENCY = 8 (all batches before the last being
exactly 8), and concatenates the batch results in order. -/
theorem probeAll_spec (bhv : String → ProbeBhv) (items : List ProbeItem) :
    (probeLoop (runItem bhv) items).length = items.length ∧
    probeLoop (runItem bhv) items = items.map (runItem bhv) ∧
    probeLoop (runItem bhv) items =
      ((chunksOf items).map (List.map (runItem bhv))).flatten ∧
    (∀ c ∈ chunksOf items, c.length ≤ CONCURRENCY ∧ c ≠ []) ∧
    (∀ c ∈ (chunksOf items).dropLast, c.length = CONCURRENCY) := by
  refine ⟨?_, probeLoop_eq_map _ _, probeLoop_eq_chunks _ _,
    fun c hc => chunksOf_mem_le _ c hc,
    fun c hc => chunksOf_dropLast_len _ c hc⟩
  rw [probeLoop_eq_map]
  simp

/-- Witness for C7 at a concrete 9-item input: 9 results, two batches, the
first batch a full slice of 8. -/
theorem probeAll_spec_witness :
    (probeLoop (runItem bhvW) itemsW).length = 9 ∧
    (chunksOf itemsW).length = 2 ∧
    (itemsW.take 8) ∈ chunksOf itemsW ∧
    (itemsW.take 8).length ≤ CONCURRENCY ∧ (itemsW.take 8) ≠ [] := by
  refine ⟨(probeAll_spec bhvW itemsW).1.trans (by decide), by decide, ?_, ?_⟩
  · decide
  · exact (probeAll_spec bhvW itemsW).2.2.2.1 (itemsW.take 8) (by decide)

/-- C8: when the HEAD fetch succeeds with status 405 or 501, exactly one
follow-up GET is issued and the GET response replaces the HEAD response in
the recorded result; any other HEAD status triggers no follow-up request
and the HEAD response is recorded. -/
theorem head_fallback_spec (b : ProbeBhv) (u : String) (r0 : JsResponse)
    (hh : b.head = Except.ok r0) :
    ((r0.status = 405 ∨ r0.status = 501) →
      (probeResource b u).2 = ["HEAD", "GET"] ∧
      ∀ r, b.get = Except.ok r →
        (probeResource b u).1 = probeFinish (initResult u) r "GET" b.elapsed) ∧
    (¬(r0.status = 405 ∨ r0.status = 501) →
      (probeResource b u).2 = ["HEAD"] ∧
      (probeResource b u).1 = probeFinish (initResult u) r0 "HEAD" b.elapsed) := by
  constructor
  · intro hs
    constructor
    · cases hg : b.get <;> simp [probeResource, hh, hs, hg]
    · intro r hg
      simp [probeResource, hh, hs, hg]
  · intro hs
    simp [probeResource, hh, hs]

/-- Witness for C8: a 405 HEAD issues HEAD then GET; a 200 HEAD issues
only HEAD. -/
theorem head_fallback_spec_witness :
    (probeResource bC8 "http://site.example/s.css").2 = ["HEAD", "GET"] ∧
    (probeResource bC8b "http://site.example/s.css").2 = ["HEAD"] := by
  constructor
  · exact ((head_fallback_spec bC8 "http://site.example/s.css" r405resp rfl).1
      (Or.inl rfl)).1
  · exact ((head_fallback_spec bC8b "http://site.example/s.css" rPlain rfl).2
      (by decide)).1

/-- C9: re-inserting a URL already present in the candidate map (any
initiator) leaves the map unchanged, both for `pushUrl` during HTML
discovery and for the crawl-phase `toProbe` insertion; hence the recorded
initiator stays the first-seen one and the map does not grow. -/
theorem dedup_first_wins (parse : String → Option JsUrl)
    (m tp : List Candidate) (u : String) (i : String)
    (hm : hasUrl m u = true) (htp : hasUrl tp u = true) :
    pushUrl parse m (some u) i = m ∧ addExtra tp [u] = tp := by
  constructor
  · by_cases hb : isBlockedUrl (parse u) = true <;> simp [pushUrl, hb, hm]
  · rw [addExtra]
    by_cases hcap : MAX_RESOURCES ≤ tp.length
    · simp [hcap]
    · simp [hcap, htp, addExtra]

/-- Witness for C9: re-inserting the present URL with a different
initiator changes nothing. -/
theorem dedup_first_wins_witness :
    pushUrl parseDemo mW (some "http://site.example/a.png") "script" = mW ∧
    addExtra mW ["http://site.example/a.png"] = mW :=
  dedup_first_wins parseDemo mW mW "http://site.example/a.png" "script"
    (by decide) (by decide)

theorem probeFinish_size (base : ProbeResult) (r : JsResponse)
    (method : String) (elapsed : Nat) :
    sizeJson (probeFinish base r method elapsed).size = specSize method r := by
  simp only [probeFinish, specSize]
  cases hcl : r.contentLength with
  | none =>
    by_cases hm : method = "GET"
    · cases hb : r.bodyBytes <;> simp [hm, hb, jsFalsy, jsIsNaN, sizeJson]
    · simp [hm, jsFalsy, jsIsNaN, sizeJson]
  | some cl =>
    by_cases hemp : cl = ""
    · by_cases hm : method = "GET"
      · cases hb : r.bodyBytes <;> simp [hemp, hm, hb, jsFalsy, jsIsNaN, sizeJson]
      · simp [hemp, hm, jsFalsy, jsIsNaN, sizeJson]
    · cases hpi : jsParseInt cl with
      | none =>
        by_cases hm : method = "GET"
        · cases hb : r.bodyBytes <;>
            simp [hemp, hpi, hm, hb, jsFalsy, jsIsNaN, sizeJson]
        · simp [hemp, hpi, hm, jsFalsy, jsIsNaN, sizeJson]
      | some n =>
        by_cases hn : n = 0
        · subst hn
          by_cases hm : method = "GET"
          · cases hb : r.bodyBytes <;>
              simp [hemp, hpi, hm, hb, jsFalsy, jsIsNaN, sizeJson]
          · simp [hemp, hpi, hm, jsFalsy, jsIsNaN, sizeJson]
        · by_cases hm : method = "GET" <;>
            simp [hemp, hpi, hn, hm, jsFalsy, jsIsNaN, sizeJson]

/-- C1 counterexample: a stylesheet on a public host whose body references
`http://10.9.9.9/x.png` (blocked by the filter: textual prefix `10.`).
The crawl inserts the blocked URL into the candidate set with initiator
`css-url`, and it then appears in the probe list, i.e. it will be
fetched — contradicting "a URL for which the filter reports blocked is
never fetched and never added to the candidate set". -/
theorem crawl_inserts_blocked_counterexample :
    isBlockedUrl (parseDemo "http://10.9.9.9/x.png") = true ∧
    (crawlCss parseDemo fetchC1 [some "http://site.example/a.css"] []).1 =
      [⟨"http://10.9.9.9/x.png", "css-url"⟩] ∧
    "http://10.9.9.9/x.png" ∈
      (mkProbes "http://site.example/"
        (crawlCss parseDemo fetchC1 [some "http://site.example/a.css"] []).1).map
        ProbeItem.url := by
  decide

/-- C1 amended: the Safety Filter is applied to the main target (blocked
targets are rejected with a 400 before any fetch), to every `pushUrl`
insertion during HTML discovery (so every candidate the discovery fold
produces is unblocked), and to every stylesheet link before it is fetched
(the crawl fetch trace contains no blocked URL); however URLs extracted
from crawled stylesheet bodies are inserted into the candidate set
without the filter (see the counterexample). -/
theorem safety_filter_coverage (parse : String → Option JsUrl)
    (cssFetch : String → Option (List String)) (bhv : String → ProbeBhv)
    (events : List (Option String × String)) (links : List (Option String))
    (tp : List Candidate) (target : String)
    (mainFetch : Except String (JsResponse × Nat))
    (cssLinks : List (Option String))
    (hb : isBlockedUrl (parse target) = true) (hne : target ≠ "") :
    (∀ c ∈ discover parse events, isBlockedUrl (parse c.url) = false) ∧
    (∀ u ∈ (crawlCss parse cssFetch links tp).2,
      isBlockedUrl (parse u) = false) ∧
    apiInspect parse cssFetch bhv target mainFetch events cssLinks =
      InspectOutcome.badRequest "URL blocked (private or non-http(s) scheme)" := by
  refine ⟨fun c hc => foldl_pushUrl_unblocked parse events [] (by simp) c hc,
    fun u hu => crawlCss_fetched_unblocked parse cssFetch links tp u hu, ?_⟩
  simp [apiInspect, hne, hb]

/-- Witness for the amended C1 theorem at a concrete blocked target and a
concrete discovery run. -/
theorem safety_filter_coverage_witness :
    isBlockedUrl (parseDemo "http://localhost/admin") = true ∧
    "http://localhost/admin" ≠ "" ∧
    apiInspect parseDemo (fun _ => none)
      (fun _ => ⟨Except.error "err", Except.error "err", 0⟩)
      "http://localhost/admin" (Except.error "unreached") [] [] =
      InspectOutcome.badRequest "URL blocked (private or non-http(s) scheme)" :=
  ⟨by decide, by decide,
    (safety_filter_coverage parseDemo (fun _ => none)
      (fun _ => ⟨Except.error "err", Except.error "err", 0⟩) [] [] []
      "http://localhost/admin" (Except.error "unreached") []
      (by decide) (by decide)).2.2⟩

/-- C2 counterexample: an inspection of `http://site.example/` whose
initial fetch returned 200 but whose HEAD probes answer 500.  The resulting
`resources` array contains the main URL itself, and its status 500 comes
from the fresh HEAD probe of the Probe Engine, not from the initial fetch —
contradicting "the main document is never probed by the Probe Engine" and
"the resources array excludes the main URL". -/
theorem main_probed_counterexample :
    (inspect parseDemo (fun _ => none) bhvC2 "http://site.example/" pageC2
        7 [] []).resources.map ProbeResult.url = ["http://site.example/"] ∧
    (inspect parseDemo (fun _ => none) bhvC2 "http://site.example/" pageC2
        7 [] []).resources.map ProbeResult.status = [some 500] ∧
    (inspect parseDemo (fun _ => none) bhvC2 "http://site.example/" pageC2
        7 [] []).main = some ⟨200, true, some "text/html", 7⟩ := by
  decide

/-- C2 amended: the `main` field of the report does come from the initial,
un-probed fetch, and discovered candidates equal to the main URL are
filtered out of the probe list; but the first entry of the probe list is the
main URL itself, that entry is probed by the Probe Engine, and its probe
result is the first element of the `resources` array. -/
theorem report_main_assembly (parse : String → Option JsUrl)
    (cssFetch : String → Option (List String)) (bhv : String → ProbeBhv)
    (target : String) (pageResp : JsResponse) (mainTime : Nat)
    (events : List (Option String × String))
    (cssLinks : List (Option String)) (tp : List Candidate) :
    (inspect parse cssFetch bhv target pageResp mainTime events cssLinks).main =
      some ⟨pageResp.status, pageResp.ok, pageResp.contentType, mainTime⟩ ∧
    (mkProbes target tp).head? = some ⟨target, some "document"⟩ ∧
    (∀ item ∈ (mkProbes target tp).tail, item.url ≠ target) ∧
    (inspect parse cssFetch bhv target pageResp mainTime events
        cssLinks).resources.head? =
      some (runItem bhv ⟨target, some "document"⟩) := by
  refine ⟨rfl, rfl, ?_, ?_⟩
  · intro item hi
    simp only [mkProbes, List.tail_cons] at hi
    rcases List.mem_map.mp hi with ⟨c, hc, rfl⟩
    have hcf := List.mem_of_mem_take hc
    have := List.of_mem_filter hcf
    simpa using this
  · simp only [inspect]
    rw [probeLoop_eq_map]
    have h200 : (MAX_RESOURCES : Nat) = 199 + 1 := rfl
    rw [mkProbes, List.map_cons, h200, List.take_succ_cons]
    rfl

/-- Witness for the amended C2 theorem: a non-main candidate survives into
the probe tail with its URL different from the main URL, and the `main`
field equals the initial fetch data. -/
theorem report_main_assembly_witness :
    (⟨"http://site.example/a.png", some "img"⟩ : ProbeItem).url ≠
      "http://site.example/" ∧
    (inspect parseDemo (fun _ => none) bhvC2 "http://site.example/" pageC2
        7 [] []).main = some ⟨200, true, some "text/html", 7⟩ :=
  ⟨(report_main_assembly parseDemo (fun _ => none) bhvC2
      "http://site.example/" pageC2 7 [] []
      [⟨"http://site.example/a.png", "img"⟩]).2.2.1
      ⟨"http://site.example/a.png", some "img"⟩ (by decide),
   (report_main_assembly parseDemo (fun _ => none) bhvC2
      "http://site.example/" pageC2 7 [] [] []).1⟩

theorem urlRep_inj : Function.Injective urlRep := by
  intro a b h
  have h2 := congrArg (fun s : String => s.data.length) h
  simpa [urlRep] using h2

/-- C3 counterexample: feeding 201 distinct unblocked URLs to the HTML
discovery phase produces a candidate map with 201 entries — the map has
no cap check, so HTML discovery does not stop adding candidates at
MAX_RESOURCES. -/
theorem discovery_cap_counterexample :
    MAX_RESOURCES < (discover parseConst evsLong).length := by
  have hnd : ((List.range 201).map urlRep).Nodup :=
    (List.nodup_range 201).map urlRep_inj
  have h := foldl_pushUrl_nodup parseConst "img" ((List.range 201).map urlRep) []
    (fun u _ => by simp only [parseConst]; decide) hnd
    (fun u _ => by simp [hasUrl])
  have h2 : discover parseConst evsLong =
      [] ++ ((List.range 201).map urlRep).map
        (fun u => (⟨u, "img"⟩ : Candidate)) := by
    rw [discover]
    exact h
  rw [h2]
  simp [MAX_RESOURCES]

/-- C3 amended: the HTML-phase candidate map itself is unbounded, but the
`toProbe` list built from it is truncated to MAX_RESOURCES, the
stylesheet crawl stops adding at the cap, and the reported `resources`
array has length at most MAX_RESOURCES. -/
theorem resource_cap_spec (parse : String → Option JsUrl)
    (cssFetch : String → Option (List String)) (bhv : String → ProbeBhv)
    (target : String) (pageResp : JsResponse) (mainTime : Nat)
    (events : List (Option String × String))
    (cssLinks links : List (Option String)) (m : List Candidate) :
    (buildToProbe m).length ≤ MAX_RESOURCES ∧
    (crawlCss parse cssFetch links (buildToProbe m)).1.length ≤ MAX_RESOURCES ∧
    (inspect parse cssFetch bhv target pageResp mainTime events
        cssLinks).resources.length ≤ MAX_RESOURCES := by
  refine ⟨buildToProbe_length m, ?_, ?_⟩
  · have h1 := crawlCss_length parse cssFetch links (buildToProbe m)
    have h2 := buildToProbe_length m
    omega
  · simp only [inspect]
    exact List.length_take_le _ _

/-- C5 counterexample: a GET fallback response carrying the numeric
header `content-length: 0` and a 5-byte body.  The header is present and
numeric, yet the recorded size is the 5 body bytes, not the header
value 0 — `if (cl)` treats the parsed 0 as falsy and triggers the body
read. -/
theorem size_zero_header_counterexample :
    rZeroCl.contentLength = some "0" ∧ jsParseInt "0" = some 0 ∧
    (probeResource bC5 "http://site.example/a.png").1.methodTried =
      some "GET" ∧
    (probeResource bC5 "http://site.example/a.png").1.size = JsNum.num 5 ∧
    JsNum.num 5 ≠ JsNum.num 0 := by
  decide

/-- C5 amended: the reported size is the `content-length` value when that
header is present, numeric and nonzero; when it is absent, non-numeric or
zero, the size is the byte length of the body if (and only if) the final
method was GET and the body read succeeds; otherwise it is 0 if the
header parsed to 0, and null in the remaining cases (a NaN slot
serializes as null).  In particular a HEAD result never carries a
body-derived size. -/
theorem probe_size_spec (b : ProbeBhv) (u : String) :
    (∀ r0, b.head = Except.ok r0 → ¬(r0.status = 405 ∨ r0.status = 501) →
      sizeJson (probeResource b u).1.size = specSize "HEAD" r0) ∧
    (∀ r0 r, b.head = Except.ok r0 → (r0.status = 405 ∨ r0.status = 501) →
      b.get = Except.ok r →
      sizeJson (probeResource b u).1.size = specSize "GET" r) := by
  constructor
  · intro r0 hh hs
    simp [probeResource, hh, hs, probeFinish_size]
  · intro r0 r hh hs hg
    simp [probeResource, hh, hs, hg, probeFinish_size]

/-- Witness for the amended C5 theorem: a HEAD response with
`content-length: 10` reports size 10, and the GET-fallback response of
`bC8` likewise matches the specified size. -/
theorem probe_size_spec_witness :
    sizeJson (probeResource bC8b "http://site.example/s.css").1.size =
      specSize "HEAD" rPlain ∧
    sizeJson (probeResource bC8 "http://site.example/s.css").1.size =
      specSize "GET" rPlain :=
  ⟨(probe_size_spec bC8b "http://site.example/s.css").1 rPlain rfl (by decide),
   (probe_size_spec bC8 "http://site.example/s.css").2 r405resp rPlain rfl
     (Or.inl rfl) rfl⟩

/-- C10 counterexample: `cssLinks = [null, resolvable]` — the second
stylesheet is unblocked, resolvable and fetchable (it would contribute
`d.png`), yet the crawl stops at the first null entry (`break`, not
`continue`), fetches nothing and adds nothing. -/
theorem css_break_counterexample :
    isBlockedUrl (parseDemo "http://site.example/b.css") = false ∧
    fetchC10 "http://site.example/b.css" =
      some ["http://site.example/d.png"] ∧
    crawlCss parseDemo fetchC10 [none, some "http://site.example/b.css"] [] =
      ([], []) := by
  decide

/-- C10 amended: a resolution failure at an HTML-discovery call site
skips only that candidate (the discovery fold is unchanged by a null
event anywhere in the sequence); but in the stylesheet crawl a null
(unresolvable) stylesheet link terminates the whole crawl, so later
stylesheet links are not fetched. -/
theorem resolver_failure_spec (parse : String → Option JsUrl)
    (cssFetch : String → Option (List String)) (i : String)
    (evs1 evs2 : List (Option String × String))
    (rest : List (Option String)) (tp : List Candidate) :
    discover parse (evs1 ++ (none, i) :: evs2) =
      discover parse (evs1 ++ evs2) ∧
    crawlCss parse cssFetch (none :: rest) tp = (tp, []) := by
  constructor
  · simp [discover, List.foldl_append, pushUrl]
  · rfl

end NetworkInspector
